import Mathlib

/-!
Shallow embedding of the ledger transaction engine (TypeScript, TypeORM):
`TransactionService.create` and the relevant parts of `AccountService`
(`create`, `recalculateBalance`, `getBalanceRealTime`).

Ids are opaque uuids in the source; they are modelled as `Nat`.  `bigint`
amounts and balances are modelled as `Int`.  The persistent state (the four
tables plus the id generators) is a `Store`; each service method becomes a
function `Store → ... → Store × result`, where the returned `Store` is the
state after the call (the atomic unit of work either commits all of its
writes or, on an error, the original store is returned unchanged, which is
what `rollbackTransaction` in the `catch` block guarantees).
-/

namespace Ledger

inductive AccountType where
  | ASSET
  | LIABILITY
  | EQUITY
deriving DecidableEq, Repr

inductive AssetCode where
  | BRL
  | USD
  | GBP
deriving DecidableEq, Repr

inductive ActorType where
  | USER
  | SYSTEM
  | WEBHOOK
deriving DecidableEq, Repr

structure Customer where
  id : Nat
deriving DecidableEq, Repr

structure Account where
  id : Nat
  name : String
  ownerId : Nat
  type : AccountType
  balance : Int
  currency : AssetCode
deriving DecidableEq, Repr

structure Transaction where
  id : Nat
  description : String
  actorId : Nat
  actorType : ActorType
deriving DecidableEq, Repr

structure LedgerEntry where
  id : Nat
  transactionId : Nat
  accountId : Nat
  amount : Int
deriving DecidableEq, Repr

/-- The persisted state: the four tables plus fresh-id counters standing in
for uuid generation. -/
structure Store where
  customers : List Customer
  accounts : List Account
  transactions : List Transaction
  entries : List LedgerEntry
  nextTxId : Nat
  nextEntryId : Nat
  nextAccountId : Nat
deriving DecidableEq, Repr

/-- One element of the `ledger_entries` array of the request body. -/
structure EntryInput where
  accountId : Nat
  amount : Int
deriving DecidableEq, Repr

/-- The `data` argument of `TransactionService.create`. -/
structure TxInput where
  description : String
  actorId : Nat
  actorType : ActorType
  ledger_entries : List EntryInput
deriving DecidableEq, Repr

/-- The typed errors thrown by the services (each constructor corresponds to
one `throw new Error(...)` site). -/
inductive LedgerError where
  | UnbalancedTransaction
  | InvalidEntryCount
  | ZeroAmountEntry
  | AccountNotFound
  | Forbidden
  | CurrencyMismatch
  | InsufficientBalance (accountName : String) (current : Int) (required : Int)
  | AccountNotFoundSingle
  | CustomerNotFound
deriving DecidableEq, Repr

/-- What `TransactionService.create` returns on success:
`{...savedTransaction, ledger_entries}`. -/
structure TxResult where
  transaction : Transaction
  ledger_entries : List LedgerEntry
deriving DecidableEq, Repr

/-- The pre-check loop (lines 65-77 of the service): for each entry, look the
account up in the resolved snapshot list; a missing account is skipped
(`if (!account) continue`); for an `ASSET` account whose projected balance
`account.balance + entry.amount` is negative, throw `InsufficientBalance`
carrying the account name, its current balance and `-entry.amount`. -/
def precheckEntries (accounts : List Account) : List EntryInput → Option LedgerError
  | [] => none
  | e :: rest =>
    match accounts.find? (fun a => a.id == e.accountId) with
    | none => precheckEntries accounts rest
    | some account =>
      if account.type = AccountType.ASSET ∧ account.balance + e.amount < 0 then
        some (.InsufficientBalance account.name account.balance (-e.amount))
      else precheckEntries accounts rest

/-- One iteration of the persistence loop (lines 94-111): save the
`LedgerEntry` row, then `findOne` the account in the current state of the
unit of work and, when present, save it back with `balance + amount`.  The
second component accumulates the saved entries (`ledgerEntries.push`). -/
def applyEntry (txId : Nat) (acc : Store × List LedgerEntry) (e : EntryInput) :
    Store × List LedgerEntry :=
  let st := acc.1
  let entry : LedgerEntry :=
    { id := st.nextEntryId, transactionId := txId, accountId := e.accountId, amount := e.amount }
  let st1 := { st with entries := st.entries ++ [entry], nextEntryId := st.nextEntryId + 1 }
  let st2 :=
    match st1.accounts.find? (fun a => a.id == e.accountId) with
    | none => st1
    | some _ =>
      { st1 with
          accounts := st1.accounts.map (fun a =>
            if a.id == e.accountId then { a with balance := a.balance + e.amount } else a) }
  (st2, acc.2 ++ [entry])

/-- The body of the atomic unit of work (lines 83-118): insert the
`Transaction` row, then run the persistence loop over the submitted entries
in order. -/
def persistUnit (st : Store) (data : TxInput) : Store × TxResult :=
  let tx : Transaction :=
    { id := st.nextTxId, description := data.description,
      actorId := data.actorId, actorType := data.actorType }
  let st1 := { st with transactions := st.transactions ++ [tx], nextTxId := st.nextTxId + 1 }
  let r := data.ledger_entries.foldl (applyEntry tx.id) (st1, [])
  (r.1, { transaction := tx, ledger_entries := r.2 })

/-- The account-resolution query (lines 43-46): fetch the account rows whose
id appears among the `accountId`s referenced by the entries.  Each stored row
is returned once, so duplicates among the referenced ids do not duplicate
rows. -/
def resolvedAccounts (st : Store) (es : List EntryInput) : List Account :=
  st.accounts.filter (fun a => (es.map (·.accountId)).contains a.id)

namespace TransactionService

/-- `TransactionService.create` (lines 18-125): validation (sum, count, zero
amounts, in that source order), account resolution, ownership and currency
authorization, the ASSET pre-check, then the atomic persistence unit.  Every
error path returns the store unchanged. -/
def create (st : Store) (data : TxInput) (authenticatedUserId : Nat) :
    Store × Except LedgerError TxResult :=
  let sum := data.ledger_entries.foldl (fun acc e => acc + e.amount) 0
  if sum ≠ 0 then (st, .error .UnbalancedTransaction)
  else if data.ledger_entries.length < 2 then (st, .error .InvalidEntryCount)
  else if data.ledger_entries.any (fun e => e.amount == 0) then (st, .error .ZeroAmountEntry)
  else
    let accountIds := data.ledger_entries.map (·.accountId)
    let accounts := resolvedAccounts st data.ledger_entries
    if accounts.length ≠ accountIds.length then (st, .error .AccountNotFound)
    else if (accounts.filter (fun a => !(a.ownerId == authenticatedUserId))).length > 0 then
      (st, .error .Forbidden)
    else if ((accounts.map (·.currency)).eraseDups).length > 1 then
      (st, .error .CurrencyMismatch)
    else
      match precheckEntries accounts data.ledger_entries with
      | some err => (st, .error err)
      | none =>
        let r := persistUnit st data
        (r.1, .ok r.2)

end TransactionService

/-- The `data` argument of `AccountService.create` (note: no balance field —
the request schema does not accept one). -/
structure AccountInput where
  name : String
  type : AccountType
  currency : AssetCode
  ownerId : Nat
deriving DecidableEq, Repr

/-- What `AccountService.getBalanceRealTime` returns. -/
structure BalanceRealTime where
  accountId : Nat
  balance : Int
  cachedBalance : Int
  currency : AssetCode
  inSync : Bool
deriving DecidableEq, Repr

namespace AccountService

/-- `AccountService.create` (lines 22-45): resolve the owning customer
(missing → `Customer not found`, nothing persisted), then persist the
account built with `balance: 0n`. -/
def create (st : Store) (data : AccountInput) : Store × Except LedgerError Account :=
  match st.customers.find? (fun c => c.id == data.ownerId) with
  | none => (st, .error .CustomerNotFound)
  | some _ =>
    let account : Account :=
      { id := st.nextAccountId, name := data.name, ownerId := data.ownerId,
        type := data.type, balance := 0, currency := data.currency }
    ({ st with accounts := st.accounts ++ [account], nextAccountId := st.nextAccountId + 1 },
     .ok account)

/-- `AccountService.recalculateBalance` (lines 105-118): sum the ledger
entries of the account, then `update(accountId, { balance: totalBalance })`
— the recomputed value is written back to the account row unconditionally —
and return the total. -/
def recalculateBalance (st : Store) (accountId : Nat) : Store × Int :=
  let ledgerEntries := st.entries.filter (fun e => e.accountId == accountId)
  let totalBalance := ledgerEntries.foldl (fun acc e => acc + e.amount) 0
  ({ st with
      accounts := st.accounts.map (fun a =>
        if a.id == accountId then { a with balance := totalBalance } else a) },
   totalBalance)

/-- `AccountService.getBalanceRealTime` (lines 120-137): `findById` (missing
→ `Account not found`), then `recalculateBalance`, then report the real-time
balance next to the cached balance read before the recalculation, with
`inSync` comparing the two. -/
def getBalanceRealTime (st : Store) (id : Nat) :
    Store × Except LedgerError BalanceRealTime :=
  match st.accounts.find? (fun a => a.id == id) with
  | none => (st, .error .AccountNotFoundSingle)
  | some account =>
    let r := recalculateBalance st id
    (r.1, .ok { accountId := account.id, balance := r.2, cachedBalance := account.balance,
                currency := account.currency, inSync := r.2 == account.balance })

end AccountService

/-- Sum of the amounts of the ledger-entry rows booked against `accountId`. -/
def entriesSumFor (entries : List LedgerEntry) (accountId : Nat) : Int :=
  ((entries.filter (fun e => e.accountId == accountId)).map (·.amount)).sum

/-- Sum of the amounts of the submitted entries that reference `accountId`. -/
def inputSumFor (es : List EntryInput) (accountId : Nat) : Int :=
  ((es.filter (fun e => e.accountId == accountId)).map (·.amount)).sum

/-- The balance/history consistency invariant: every account row's cached
balance equals the sum of the ledger entries booked against it. -/
def balanceInv (st : Store) : Prop :=
  ∀ a ∈ st.accounts, a.balance = entriesSumFor st.entries a.id

instance (st : Store) : Decidable (balanceInv st) := by
  unfold balanceInv; infer_instance

/-- The `LedgerEntry` rows the persistence loop creates for the submitted
entries, starting from entry-id `n`, all owned by transaction `txId`. -/
def mkEntries (n txId : Nat) : List EntryInput → List LedgerEntry
  | [] => []
  | e :: rest =>
    { id := n, transactionId := txId, accountId := e.accountId, amount := e.amount }
      :: mkEntries (n + 1) txId rest

/-- `true` exactly on the success path of a service call. -/
def isOkB {ε α : Type} : Except ε α → Bool
  | .ok _ => true
  | .error _ => false

deriving instance DecidableEq for Except

/-- The condition the pre-check tests for one entry: its resolved account is
of type ASSET and the projected balance `balance + amount` is negative. -/
def offendsAsset (accounts : List Account) (e : EntryInput) : Prop :=
  ∃ a, accounts.find? (fun x => x.id == e.accountId) = some a ∧
    a.type = AccountType.ASSET ∧ a.balance + e.amount < 0

instance (accounts : List Account) (e : EntryInput) : Decidable (offendsAsset accounts e) :=
  match h : accounts.find? (fun x => x.id == e.accountId) with
  | none =>
    isFalse (by
      rintro ⟨a, ha, -⟩
      rw [h] at ha
      exact Option.noConfusion ha)
  | some a =>
    if hp : a.type = AccountType.ASSET ∧ a.balance + e.amount < 0 then
      isTrue ⟨a, h, hp⟩
    else
      isFalse (by
        rintro ⟨b, hb, hb2⟩
        rw [h] at hb
        cases hb
        exact hp hb2)

/-! ### Concrete stores and inputs used to instantiate the theorems -/

/-- A store with no rows at all. -/
def emptySt : Store :=
  { customers := [], accounts := [], transactions := [], entries := [],
    nextTxId := 0, nextEntryId := 0, nextAccountId := 0 }

/-- A single-entry submission whose amount does not sum to zero. -/
def oneEntryData : TxInput :=
  { description := "single", actorId := 7, actorType := .USER,
    ledger_entries := [{ accountId := 1, amount := -10000 }] }

/-- A submission with an empty entry list (sum is zero, count is too small). -/
def noEntryData : TxInput :=
  { description := "empty", actorId := 7, actorType := .USER, ledger_entries := [] }

/-- Customer 7 owning one BRL ASSET account with id 1 and balance 100. -/
def dupSt : Store :=
  { customers := [{ id := 7 }],
    accounts := [{ id := 1, name := "A", ownerId := 7, type := .ASSET,
                   balance := 100, currency := .BRL }],
    transactions := [], entries := [],
    nextTxId := 50, nextEntryId := 60, nextAccountId := 2 }

/-- Two balanced entries both referencing the (existing) account 1. -/
def dupData : TxInput :=
  { description := "dup", actorId := 7, actorType := .USER,
    ledger_entries := [{ accountId := 1, amount := -5 }, { accountId := 1, amount := 5 }] }

/-- Customer 7 owning an ASSET account (id 1, balance 0) and a LIABILITY
account (id 2, balance 0), both in BRL. -/
def assetLiabSt : Store :=
  { customers := [{ id := 7 }],
    accounts := [{ id := 1, name := "A", ownerId := 7, type := .ASSET,
                   balance := 0, currency := .BRL },
                 { id := 2, name := "L", ownerId := 7, type := .LIABILITY,
                   balance := 0, currency := .BRL }],
    transactions := [], entries := [],
    nextTxId := 50, nextEntryId := 60, nextAccountId := 3 }

/-- Moves 5 out of the ASSET account 1 (driving it to -5) into account 2. -/
def overdrawData : TxInput :=
  { description := "stale", actorId := 7, actorType := .USER,
    ledger_entries := [{ accountId := 1, amount := -5 }, { accountId := 2, amount := 5 }] }

/-- Moves 5 out of the LIABILITY account 2 (driving it to -5) into account 1. -/
def liabNegData : TxInput :=
  { description := "liab", actorId := 7, actorType := .USER,
    ledger_entries := [{ accountId := 2, amount := -5 }, { accountId := 1, amount := 5 }] }

/-- A store satisfying the balance/history invariant: the two cached balances
(50 and 30) equal the sums of the accounts' ledger entries. -/
def invSt : Store :=
  { customers := [{ id := 7 }],
    accounts := [{ id := 1, name := "A", ownerId := 7, type := .ASSET,
                   balance := 50, currency := .BRL },
                 { id := 2, name := "B", ownerId := 7, type := .ASSET,
                   balance := 30, currency := .BRL }],
    transactions := [{ id := 90, description := "seed", actorId := 7, actorType := .SYSTEM }],
    entries := [{ id := 10, transactionId := 90, accountId := 1, amount := 50 },
                { id := 11, transactionId := 90, accountId := 2, amount := 30 }],
    nextTxId := 91, nextEntryId := 12, nextAccountId := 3 }

/-- Transfers 10 from account 1 to account 2. -/
def transferData : TxInput :=
  { description := "transfer", actorId := 7, actorType := .USER,
    ledger_entries := [{ accountId := 1, amount := -10 }, { accountId := 2, amount := 10 }] }

/-- An account whose cached balance (5) drifted from its entry history (3). -/
def driftSt : Store :=
  { customers := [{ id := 7 }],
    accounts := [{ id := 1, name := "A", ownerId := 7, type := .ASSET,
                   balance := 5, currency := .BRL }],
    transactions := [{ id := 90, description := "seed", actorId := 7, actorType := .SYSTEM }],
    entries := [{ id := 10, transactionId := 90, accountId := 1, amount := 3 }],
    nextTxId := 91, nextEntryId := 11, nextAccountId := 2 }

/-- `driftSt` with its two-entry history split differently and reordered. -/
def permSt : Store :=
  { customers := [{ id := 7 }],
    accounts := [{ id := 1, name := "A", ownerId := 7, type := .ASSET,
                   balance := 5, currency := .BRL }],
    transactions := [{ id := 90, description := "seed", actorId := 7, actorType := .SYSTEM }],
    entries := [{ id := 10, transactionId := 90, accountId := 1, amount := 3 },
                { id := 11, transactionId := 90, accountId := 2, amount := 4 }],
    nextTxId := 91, nextEntryId := 12, nextAccountId := 2 }

/-- `permSt` with the order of its entry rows reversed. -/
def permSt2 : Store :=
  { permSt with
    entries := [{ id := 11, transactionId := 90, accountId := 2, amount := 4 },
                { id := 10, transactionId := 90, accountId := 1, amount := 3 }] }

/-- A request to open a LIABILITY account for customer 7. -/
def newAccountData : AccountInput :=
  { name := "new", type := .LIABILITY, currency := .BRL, ownerId := 7 }

/-- A request to open an account for a customer id that does not exist. -/
def orphanAccountData : AccountInput :=
  { name := "orphan", type := .ASSET, currency := .BRL, ownerId := 99 }

/-! ### Helper lemmas about the folds used by the services -/

theorem entryFold_eq (es : List EntryInput) :
    ∀ i : Int, es.foldl (fun acc e => acc + e.amount) i = i + (es.map (·.amount)).sum := by
  induction es with
  | nil => intro i; simp
  | cons e rest ih => intro i; simp [List.foldl_cons, ih, List.sum_cons]; ring

theorem ledgerFold_eq (l : List LedgerEntry) :
    ∀ i : Int, l.foldl (fun acc e => acc + e.amount) i = i + (l.map (·.amount)).sum := by
  induction l with
  | nil => intro i; simp
  | cons e rest ih => intro i; simp [List.foldl_cons, ih, List.sum_cons]; ring

theorem inputSumFor_nil (i : Nat) : inputSumFor [] i = 0 := rfl

theorem inputSumFor_cons (e : EntryInput) (rest : List EntryInput) (i : Nat) :
    inputSumFor (e :: rest) i =
      (if e.accountId = i then e.amount else 0) + inputSumFor rest i := by
  by_cases h : e.accountId = i <;>
    simp [inputSumFor, List.filter_cons, h]

theorem account_add_zero (a : Account) :
    ({ a with balance := a.balance + 0 } : Account) = a := by
  cases a; simp

/-- One step of the persistence loop, written out: the entry row is appended
and every account row whose id matches gets the amount added (when no row
matches the map is the identity, so the equation holds unconditionally). -/
theorem applyEntry_eq (txId : Nat) (st : Store) (acc : List LedgerEntry) (e : EntryInput) :
    applyEntry txId (st, acc) e =
      ({ st with
          accounts := st.accounts.map (fun a =>
            if a.id == e.accountId then { a with balance := a.balance + e.amount } else a),
          entries := st.entries ++
            [{ id := st.nextEntryId, transactionId := txId,
               accountId := e.accountId, amount := e.amount }],
          nextEntryId := st.nextEntryId + 1 },
       acc ++
        [{ id := st.nextEntryId, transactionId := txId,
           accountId := e.accountId, amount := e.amount }]) := by
  cases hf : st.accounts.find? (fun a => a.id == e.accountId) with
  | some a => simp [applyEntry, hf]
  | none =>
    have hall : ∀ a ∈ st.accounts, (a.id == e.accountId) = false := by
      intro a ha
      have := List.find?_eq_none.mp hf a ha
      simpa using this
    have hmap : st.accounts.map (fun a =>
        if a.id == e.accountId then { a with balance := a.balance + e.amount } else a) =
        st.accounts := by
      have h1 : st.accounts.map (fun a =>
          if a.id == e.accountId then { a with balance := a.balance + e.amount } else a) =
          st.accounts.map id :=
        List.map_congr_left (fun a ha => by simp [hall a ha])
      simpa using h1
    simp only [applyEntry, hf]
    rw [hmap]

/-- Full characterisation of the persistence loop: starting from store `st`,
it appends exactly the rows `mkEntries st.nextEntryId txId es` and adds to
every account row the net sum of the submitted entries referencing it —
unconditionally, with no failure case. -/
theorem foldl_applyEntry (txId : Nat) (es : List EntryInput) :
    ∀ (st : Store) (acc : List LedgerEntry),
    es.foldl (applyEntry txId) (st, acc) =
      ({ st with
          accounts := st.accounts.map
            (fun a => { a with balance := a.balance + inputSumFor es a.id }),
          entries := st.entries ++ mkEntries st.nextEntryId txId es,
          nextEntryId := st.nextEntryId + es.length },
       acc ++ mkEntries st.nextEntryId txId es) := by
  induction es with
  | nil =>
    intro st acc
    have hmap : st.accounts.map
        (fun a => { a with balance := a.balance + inputSumFor [] a.id }) = st.accounts := by
      have h1 : st.accounts.map
          (fun a => { a with balance := a.balance + inputSumFor [] a.id }) =
          st.accounts.map id :=
        List.map_congr_left (fun a _ => by simp [inputSumFor_nil, account_add_zero])
      simpa using h1
    simp [mkEntries, hmap]
  | cons e rest ih =>
    intro st acc
    rw [List.foldl_cons, applyEntry_eq, ih]
    have hacc : (st.accounts.map (fun a =>
        if a.id == e.accountId then { a with balance := a.balance + e.amount } else a)).map
          (fun a => { a with balance := a.balance + inputSumFor rest a.id }) =
        st.accounts.map
          (fun a => { a with balance := a.balance + inputSumFor (e :: rest) a.id }) := by
      rw [List.map_map]
      apply List.map_congr_left
      intro a _
      by_cases h : a.id = e.accountId
      · simp only [Function.comp, h, beq_self_eq_true, if_true, inputSumFor_cons]
        cases a; simp; ring
      · have hb : (a.id == e.accountId) = false := by simpa using h
        have hb' : ¬ e.accountId = a.id := fun hc => h hc.symm
        simp only [Function.comp, hb, if_false, inputSumFor_cons, hb', if_neg, zero_add]
        simp
    simp only [hacc, mkEntries, List.append_assoc, List.singleton_append, List.length_cons]
    have hlen : st.nextEntryId + 1 + rest.length = st.nextEntryId + (rest.length + 1) := by omega
    rw [hlen]

/-- The whole atomic unit, written out: one `Transaction` row, the entry rows
in submission order, and the net per-account balance updates. -/
theorem persistUnit_eq (st : Store) (data : TxInput) :
    persistUnit st data =
      ({ st with
          accounts := st.accounts.map
            (fun a => { a with balance := a.balance + inputSumFor data.ledger_entries a.id }),
          transactions := st.transactions ++
            [{ id := st.nextTxId, description := data.description,
               actorId := data.actorId, actorType := data.actorType }],
          entries := st.entries ++ mkEntries st.nextEntryId st.nextTxId data.ledger_entries,
          nextTxId := st.nextTxId + 1,
          nextEntryId := st.nextEntryId + data.ledger_entries.length },
       { transaction := { id := st.nextTxId, description := data.description,
                          actorId := data.actorId, actorType := data.actorType },
         ledger_entries := mkEntries st.nextEntryId st.nextTxId data.ledger_entries }) := by
  simp only [persistUnit, foldl_applyEntry, List.nil_append]

theorem entriesSumFor_append (l1 l2 : List LedgerEntry) (i : Nat) :
    entriesSumFor (l1 ++ l2) i = entriesSumFor l1 i + entriesSumFor l2 i := by
  simp [entriesSumFor, List.filter_append]

/-- The rows created by the persistence loop carry exactly the submitted
accounts and amounts, so their per-account sums agree with the input's. -/
theorem mkEntries_sumFor (txId i : Nat) (es : List EntryInput) :
    ∀ n, entriesSumFor (mkEntries n txId es) i = inputSumFor es i := by
  induction es with
  | nil => intro n; rfl
  | cons e rest ih =>
    intro n
    by_cases h : e.accountId = i <;>
      simp [mkEntries, entriesSumFor, inputSumFor, List.filter_cons, h] <;>
      simpa [entriesSumFor, inputSumFor] using ih (n + 1)

/-- The pre-check loop passes exactly when no entry offends. -/
theorem precheckEntries_eq_none (accounts : List Account) (es : List EntryInput) :
    precheckEntries accounts es = none ↔ ∀ e ∈ es, ¬ offendsAsset accounts e := by
  induction es with
  | nil => simp [precheckEntries]
  | cons e rest ih =>
    cases hf : accounts.find? (fun x => x.id == e.accountId) with
    | none =>
      have hno : ¬ offendsAsset accounts e := by
        rintro ⟨a, ha, -⟩; rw [hf] at ha; exact Option.noConfusion ha
      simp [precheckEntries, hf, ih, hno]
    | some a =>
      by_cases hp : a.type = AccountType.ASSET ∧ a.balance + e.amount < 0
      · have hoff : offendsAsset accounts e := ⟨a, hf, hp⟩
        simp [precheckEntries, hf, hp, hoff]
      · have hno : ¬ offendsAsset accounts e := by
          rintro ⟨b, hb, hb2⟩; rw [hf] at hb; cases hb; exact hp hb2
        simp [precheckEntries, hf, hp, ih, hno]

/-- Every error produced by the pre-check loop is an `InsufficientBalance`. -/
theorem precheckEntries_some_shape (accounts : List Account) (es : List EntryInput) :
    ∀ err, precheckEntries accounts es = some err →
      ∃ nm cur req, err = .InsufficientBalance nm cur req := by
  induction es with
  | nil => intro err h; exact Option.noConfusion h
  | cons e rest ih =>
    intro err h
    cases hf : accounts.find? (fun x => x.id == e.accountId) with
    | none =>
      simp only [precheckEntries, hf] at h
      exact ih err h
    | some a =>
      simp only [precheckEntries, hf] at h
      by_cases hp : a.type = AccountType.ASSET ∧ a.balance + e.amount < 0
      · rw [if_pos hp] at h
        injection h with h2
        exact ⟨a.name, a.balance, -e.amount, h2.symm⟩
      · rw [if_neg hp] at h
        exact ih err h

/-! ### Branch equations for `TransactionService.create`

One equation per `throw` site (plus one for the success path), each assuming
the failure conditions of all earlier branches are false — mirroring the
top-to-bottom evaluation of the source. -/

theorem create_eq_unbalanced (st : Store) (data : TxInput) (uid : Nat)
    (H1 : data.ledger_entries.foldl (fun acc e => acc + e.amount) 0 ≠ 0) :
    TransactionService.create st data uid = (st, .error .UnbalancedTransaction) := by
  simp only [TransactionService.create]
  rw [if_pos H1]

theorem create_eq_invalidCount (st : Store) (data : TxInput) (uid : Nat)
    (H1 : data.ledger_entries.foldl (fun acc e => acc + e.amount) 0 = 0)
    (H2 : data.ledger_entries.length < 2) :
    TransactionService.create st data uid = (st, .error .InvalidEntryCount) := by
  simp only [TransactionService.create]
  rw [if_neg (not_not_intro H1), if_pos H2]

theorem create_eq_zeroAmount (st : Store) (data : TxInput) (uid : Nat)
    (H1 : data.ledger_entries.foldl (fun acc e => acc + e.amount) 0 = 0)
    (H2 : ¬ data.ledger_entries.length < 2)
    (H3 : data.ledger_entries.any (fun e => e.amount == 0) = true) :
    TransactionService.create st data uid = (st, .error .ZeroAmountEntry) := by
  simp only [TransactionService.create]
  rw [if_neg (not_not_intro H1), if_neg H2, if_pos H3]

theorem create_eq_accountNotFound (st : Store) (data : TxInput) (uid : Nat)
    (H1 : data.ledger_entries.foldl (fun acc e => acc + e.amount) 0 = 0)
    (H2 : ¬ data.ledger_entries.length < 2)
    (H3 : data.ledger_entries.any (fun e => e.amount == 0) = false)
    (H4 : (resolvedAccounts st data.ledger_entries).length ≠ data.ledger_entries.length) :
    TransactionService.create st data uid = (st, .error .AccountNotFound) := by
  have H3' : ¬ data.ledger_entries.any (fun e => e.amount == 0) = true := by simp [H3]
  have H4' : (resolvedAccounts st data.ledger_entries).length ≠
      (data.ledger_entries.map (·.accountId)).length := by
    simpa using H4
  simp only [TransactionService.create]
  rw [if_neg (not_not_intro H1), if_neg H2, if_neg H3', if_pos H4']

theorem create_eq_forbidden (st : Store) (data : TxInput) (uid : Nat)
    (H1 : data.ledger_entries.foldl (fun acc e => acc + e.amount) 0 = 0)
    (H2 : ¬ data.ledger_entries.length < 2)
    (H3 : data.ledger_entries.any (fun e => e.amount == 0) = false)
    (H4 : (resolvedAccounts st data.ledger_entries).length = data.ledger_entries.length)
    (H5 : ((resolvedAccounts st data.ledger_entries).filter
        (fun a => !(a.ownerId == uid))).length > 0) :
    TransactionService.create st data uid = (st, .error .Forbidden) := by
  have H3' : ¬ data.ledger_entries.any (fun e => e.amount == 0) = true := by simp [H3]
  have H4' : ¬ (resolvedAccounts st data.ledger_entries).length ≠
      (data.ledger_entries.map (·.accountId)).length := by
    simp [H4]
  simp only [TransactionService.create]
  rw [if_neg (not_not_intro H1), if_neg H2, if_neg H3', if_neg H4', if_pos H5]

theorem create_eq_currencyMismatch (st : Store) (data : TxInput) (uid : Nat)
    (H1 : data.ledger_entries.foldl (fun acc e => acc + e.amount) 0 = 0)
    (H2 : ¬ data.ledger_entries.length < 2)
    (H3 : data.ledger_entries.any (fun e => e.amount == 0) = false)
    (H4 : (resolvedAccounts st data.ledger_entries).length = data.ledger_entries.length)
    (H5 : ¬ ((resolvedAccounts st data.ledger_entries).filter
        (fun a => !(a.ownerId == uid))).length > 0)
    (H6 : (((resolvedAccounts st data.ledger_entries).map (·.currency)).eraseDups).length > 1) :
    TransactionService.create st data uid = (st, .error .CurrencyMismatch) := by
  have H3' : ¬ data.ledger_entries.any (fun e => e.amount == 0) = true := by simp [H3]
  have H4' : ¬ (resolvedAccounts st data.ledger_entries).length ≠
      (data.ledger_entries.map (·.accountId)).length := by
    simp [H4]
  simp only [TransactionService.create]
  rw [if_neg (not_not_intro H1), if_neg H2, if_neg H3', if_neg H4', if_neg H5, if_pos H6]

theorem create_eq_precheckError (st : Store) (data : TxInput) (uid : Nat) (err : LedgerError)
    (H1 : data.ledger_entries.foldl (fun acc e => acc + e.amount) 0 = 0)
    (H2 : ¬ data.ledger_entries.length < 2)
    (H3 : data.ledger_entries.any (fun e => e.amount == 0) = false)
    (H4 : (resolvedAccounts st data.ledger_entries).length = data.ledger_entries.length)
    (H5 : ¬ ((resolvedAccounts st data.ledger_entries).filter
        (fun a => !(a.ownerId == uid))).length > 0)
    (H6 : ¬ (((resolvedAccounts st data.ledger_entries).map (·.currency)).eraseDups).length > 1)
    (Hp : precheckEntries (resolvedAccounts st data.ledger_entries) data.ledger_entries =
      some err) :
    TransactionService.create st data uid = (st, .error err) := by
  have H3' : ¬ data.ledger_entries.any (fun e => e.amount == 0) = true := by simp [H3]
  have H4' : ¬ (resolvedAccounts st data.ledger_entries).length ≠
      (data.ledger_entries.map (·.accountId)).length := by
    simp [H4]
  simp only [TransactionService.create]
  rw [if_neg (not_not_intro H1), if_neg H2, if_neg H3', if_neg H4', if_neg H5, if_neg H6]
  simp only [Hp]

theorem create_eq_success (st : Store) (data : TxInput) (uid : Nat)
    (H1 : data.ledger_entries.foldl (fun acc e => acc + e.amount) 0 = 0)
    (H2 : ¬ data.ledger_entries.length < 2)
    (H3 : data.ledger_entries.any (fun e => e.amount == 0) = false)
    (H4 : (resolvedAccounts st data.ledger_entries).length = data.ledger_entries.length)
    (H5 : ¬ ((resolvedAccounts st data.ledger_entries).filter
        (fun a => !(a.ownerId == uid))).length > 0)
    (H6 : ¬ (((resolvedAccounts st data.ledger_entries).map (·.currency)).eraseDups).length > 1)
    (Hp : precheckEntries (resolvedAccounts st data.ledger_entries) data.ledger_entries = none) :
    TransactionService.create st data uid =
      ((persistUnit st data).1, .ok (persistUnit st data).2) := by
  have H3' : ¬ data.ledger_entries.any (fun e => e.amount == 0) = true := by simp [H3]
  have H4' : ¬ (resolvedAccounts st data.ledger_entries).length ≠
      (data.ledger_entries.map (·.accountId)).length := by
    simp [H4]
  simp only [TransactionService.create]
  rw [if_neg (not_not_intro H1), if_neg H2, if_neg H3', if_neg H4', if_neg H5, if_neg H6]
  simp only [Hp]

/-- A non-offending entry is passed over by the pre-check loop. -/
theorem precheck_skip (accounts : List Account) (e : EntryInput) (rest : List EntryInput)
    (h : ¬ offendsAsset accounts e) :
    precheckEntries accounts (e :: rest) = precheckEntries accounts rest := by
  cases hf : accounts.find? (fun x => x.id == e.accountId) with
  | none => simp [precheckEntries, hf]
  | some a =>
    have hp : ¬ (a.type = AccountType.ASSET ∧ a.balance + e.amount < 0) := by
      rintro hp2; exact h ⟨a, hf, hp2⟩
    simp [precheckEntries, hf, hp]

/-- An offending entry at the head of the list is the one the pre-check
reports: the error carries its account's name, current balance and the
negated amount. -/
theorem precheck_hit (accounts : List Account) (e : EntryInput) (rest : List EntryInput)
    (a : Account) (hf : accounts.find? (fun x => x.id == e.accountId) = some a)
    (ht : a.type = AccountType.ASSET) (hlt : a.balance + e.amount < 0) :
    precheckEntries accounts (e :: rest) =
      some (.InsufficientBalance a.name a.balance (-e.amount)) := by
  simp [precheckEntries, hf, ht, hlt]

/-- The pre-check loop skips over any prefix of non-offending entries. -/
theorem precheck_append_skip (accounts : List Account) (pre : List EntryInput)
    (hpre : ∀ e ∈ pre, ¬ offendsAsset accounts e) :
    ∀ es, precheckEntries accounts (pre ++ es) = precheckEntries accounts es := by
  induction pre with
  | nil => intro es; rfl
  | cons p ps ih =>
    intro es
    rw [List.cons_append, precheck_skip accounts p (ps ++ es) (hpre p (by simp))]
    exact ih (fun e he => hpre e (by simp [he])) es

/-- Every run of `create` either leaves the store untouched and reports a
typed error, or commits exactly the atomic unit. -/
theorem create_cases (st : Store) (data : TxInput) (uid : Nat) :
    ((TransactionService.create st data uid).1 = st ∧
      ∃ e, (TransactionService.create st data uid).2 = .error e) ∨
    TransactionService.create st data uid =
      ((persistUnit st data).1, .ok (persistUnit st data).2) := by
  by_cases c1 : data.ledger_entries.foldl (fun acc e => acc + e.amount) 0 = 0
  case neg =>
    left
    rw [create_eq_unbalanced st data uid c1]
    exact ⟨rfl, _, rfl⟩
  by_cases c2 : data.ledger_entries.length < 2
  case pos =>
    left
    rw [create_eq_invalidCount st data uid c1 c2]
    exact ⟨rfl, _, rfl⟩
  by_cases c3p : data.ledger_entries.any (fun e => e.amount == 0) = true
  case pos =>
    left
    rw [create_eq_zeroAmount st data uid c1 c2 c3p]
    exact ⟨rfl, _, rfl⟩
  have c3 : data.ledger_entries.any (fun e => e.amount == 0) = false := by
    simpa using c3p
  by_cases c4 : (resolvedAccounts st data.ledger_entries).length = data.ledger_entries.length
  case neg =>
    left
    rw [create_eq_accountNotFound st data uid c1 c2 c3 c4]
    exact ⟨rfl, _, rfl⟩
  by_cases c5 : ((resolvedAccounts st data.ledger_entries).filter
      (fun a => !(a.ownerId == uid))).length > 0
  case pos =>
    left
    rw [create_eq_forbidden st data uid c1 c2 c3 c4 c5]
    exact ⟨rfl, _, rfl⟩
  by_cases c6 : (((resolvedAccounts st data.ledger_entries).map (·.currency)).eraseDups).length > 1
  case pos =>
    left
    rw [create_eq_currencyMismatch st data uid c1 c2 c3 c4 c5 c6]
    exact ⟨rfl, _, rfl⟩
  cases hp : precheckEntries (resolvedAccounts st data.ledger_entries) data.ledger_entries with
  | some err =>
    left
    rw [create_eq_precheckError st data uid err c1 c2 c3 c4 c5 c6 hp]
    exact ⟨rfl, _, rfl⟩
  | none =>
    right
    exact create_eq_success st data uid c1 c2 c3 c4 c5 c6 hp

/-! ### The claims -/

/-- C1: every call to `TransactionService.create` that returns an error
leaves the persisted state exactly as it was — no Transaction row, no
LedgerEntry row, and no account balance mutation survives, whether the error
was detected by validation/authorization/pre-check before the atomic unit or
inside the unit. -/
theorem submit_error_leaves_state_unchanged (st : Store) (data : TxInput) (uid : Nat)
    (e : LedgerError) (h : (TransactionService.create st data uid).2 = .error e) :
    (TransactionService.create st data uid).1 = st := by
  rcases create_cases st data uid with ⟨h1, -⟩ | h2
  · exact h1
  · rw [h2] at h
    exact absurd h (by simp)

theorem submit_error_leaves_state_unchanged_witness :
    (TransactionService.create emptySt noEntryData 7).2 = .error .InvalidEntryCount ∧
    (TransactionService.create emptySt noEntryData 7).1 = emptySt :=
  ⟨rfl, submit_error_leaves_state_unchanged emptySt noEntryData 7 .InvalidEntryCount rfl⟩

/-- C2 counterexample: at the start of the Persisting step, account 1 is an
ASSET whose current row fails the incremental re-check (balance 0, entry
amount -5 gives projected -5 < 0), yet the unit does not abort: it completes
and persists the negative balance -5.  No lock-and-re-validate happens
inside the unit. -/
theorem persist_no_recheck_counterexample :
    offendsAsset assetLiabSt.accounts { accountId := 1, amount := -5 } ∧
    (persistUnit assetLiabSt overdrawData).1.accounts.map (fun a => (a.id, a.type, a.balance)) =
      [(1, AccountType.ASSET, -5), (2, AccountType.LIABILITY, 5)] :=
  ⟨by decide, by decide⟩

/-- C2 amended: the Persisting step performs no re-validation at all — per
entry, in submission order, it re-reads the account row and unconditionally
adds the amount, so every account row ends the unit at
`balance + (net sum of its entries)` with no failure case (in particular an
ASSET row can be driven negative when the pre-check snapshot was stale). -/
theorem persist_applies_unconditionally (st : Store) (data : TxInput) :
    (persistUnit st data).1.accounts =
      st.accounts.map
        (fun a => { a with balance := a.balance + inputSumFor data.ledger_entries a.id }) := by
  rw [persistUnit_eq]

/-- C3 counterexample: account 1 has cached balance 5 and entry history
summing to 3; a `getBalanceRealTime` audit call (no persist was requested
anywhere) overwrites the cached column with 3. -/
theorem recompute_persists_counterexample :
    driftSt.accounts.map (·.balance) = [5] ∧
    (AccountService.getBalanceRealTime driftSt 1).1.accounts.map (·.balance) = [3] ∧
    (3 : Int) ≠ 5 :=
  ⟨rfl, rfl, by decide⟩

/-- C3 amended: `recalculateBalance` always persists the recomputed value
over the cached one (there is no persist flag), so the audit operation
`getBalanceRealTime` implicitly repairs the cached balance as a side effect;
its response reports the pre-call cached value and compares `inSync` against
it. -/
theorem recompute_always_persists (st : Store) (id : Nat) :
    ((AccountService.recalculateBalance st id).1.accounts =
      st.accounts.map (fun a =>
        if a.id == id then { a with balance := entriesSumFor st.entries id } else a)) ∧
    ((AccountService.recalculateBalance st id).2 = entriesSumFor st.entries id) ∧
    (∀ acct, st.accounts.find? (fun a => a.id == id) = some acct →
      (AccountService.getBalanceRealTime st id).1 = (AccountService.recalculateBalance st id).1 ∧
      (AccountService.getBalanceRealTime st id).2 =
        .ok { accountId := acct.id, balance := entriesSumFor st.entries id,
              cachedBalance := acct.balance, currency := acct.currency,
              inSync := entriesSumFor st.entries id == acct.balance }) := by
  have htot : (st.entries.filter (fun e => e.accountId == id)).foldl
      (fun acc e => acc + e.amount) 0 = entriesSumFor st.entries id := by
    rw [ledgerFold_eq]
    simp [entriesSumFor]
  refine ⟨?_, ?_, ?_⟩
  · simp only [AccountService.recalculateBalance, htot]
  · simp only [AccountService.recalculateBalance, htot]
  · intro acct hf
    constructor
    · simp only [AccountService.getBalanceRealTime, hf]
    · simp only [AccountService.getBalanceRealTime, AccountService.recalculateBalance, hf, htot]

theorem recompute_always_persists_witness :
    (AccountService.recalculateBalance driftSt 1).2 = 3 ∧
    (AccountService.getBalanceRealTime driftSt 1).2 =
      .ok { accountId := 1, balance := 3, cachedBalance := 5,
            currency := .BRL, inSync := false } :=
  ⟨(recompute_always_persists driftSt 1).2.1,
   ((recompute_always_persists driftSt 1).2.2
      { id := 1, name := "A", ownerId := 7, type := .ASSET,
        balance := 5, currency := .BRL } rfl).2⟩

/-- C4 counterexample: a single-entry submission whose amount sums to a
nonzero value is rejected as `UnbalancedTransaction`, not as
`InvalidEntryCount` — the balance rule is evaluated before the entry-count
rule in the source. -/
theorem validation_order_counterexample :
    oneEntryData.ledger_entries.length < 2 ∧
    (TransactionService.create emptySt oneEntryData 7).2 = .error .UnbalancedTransaction ∧
    (TransactionService.create emptySt oneEntryData 7).2 ≠ .error .InvalidEntryCount :=
  ⟨by decide, rfl, by decide⟩

/-- C4 amended: entry validation evaluates its rules with first failure
winning in the order: nonzero sum → `UnbalancedTransaction`, then fewer than
2 entries → `InvalidEntryCount`, then any zero amount → `ZeroAmountEntry`;
so a too-short entry list yields `InvalidEntryCount` only when its amounts
sum to zero. -/
theorem validation_order_amended (st : Store) (data : TxInput) (uid : Nat) :
    ((data.ledger_entries.map (·.amount)).sum ≠ 0 →
      (TransactionService.create st data uid).2 = .error .UnbalancedTransaction) ∧
    ((data.ledger_entries.map (·.amount)).sum = 0 → data.ledger_entries.length < 2 →
      (TransactionService.create st data uid).2 = .error .InvalidEntryCount) ∧
    ((data.ledger_entries.map (·.amount)).sum = 0 → ¬ data.ledger_entries.length < 2 →
      (∃ e ∈ data.ledger_entries, e.amount = 0) →
      (TransactionService.create st data uid).2 = .error .ZeroAmountEntry) := by
  have hfold : data.ledger_entries.foldl (fun acc e => acc + e.amount) 0 =
      (data.ledger_entries.map (·.amount)).sum := by
    rw [entryFold_eq]
    ring
  refine ⟨fun h1 => ?_, fun h1 h2 => ?_, fun h1 h2 h3 => ?_⟩
  · rw [create_eq_unbalanced st data uid (by rw [hfold]; exact h1)]
  · rw [create_eq_invalidCount st data uid (by rw [hfold]; exact h1) h2]
  · have h3' : data.ledger_entries.any (fun e => e.amount == 0) = true := by
      rw [List.any_eq_true]
      rcases h3 with ⟨e, he, hz⟩
      exact ⟨e, he, by simpa using hz⟩
    rw [create_eq_zeroAmount st data uid (by rw [hfold]; exact h1) h2 h3']

theorem validation_order_amended_witness :
    (TransactionService.create emptySt oneEntryData 7).2 = .error .UnbalancedTransaction :=
  (validation_order_amended emptySt oneEntryData 7).1 (by decide)

/-- C5: once validation and authorization pass, `create` fails with an
`InsufficientBalance` error iff some entry's resolved account is an ASSET
whose snapshot balance plus the entry amount is negative; LIABILITY and
EQUITY accounts are never floor-checked, so without an offending ASSET entry
the call succeeds whatever balances they are driven to.  The reported error
carries the first offending entry's account name, its current balance, and
the required magnitude `-amount`. -/
theorem asset_floor_check (st : Store) (data : TxInput) (uid : Nat)
    (H1 : (data.ledger_entries.map (·.amount)).sum = 0)
    (H2 : ¬ data.ledger_entries.length < 2)
    (H3 : data.ledger_entries.any (fun e => e.amount == 0) = false)
    (H4 : (resolvedAccounts st data.ledger_entries).length = data.ledger_entries.length)
    (H5 : ¬ ((resolvedAccounts st data.ledger_entries).filter
        (fun a => !(a.ownerId == uid))).length > 0)
    (H6 : ¬ (((resolvedAccounts st data.ledger_entries).map (·.currency)).eraseDups).length > 1) :
    ((∃ nm cur req, (TransactionService.create st data uid).2 =
        .error (.InsufficientBalance nm cur req)) ↔
      ∃ e ∈ data.ledger_entries, offendsAsset (resolvedAccounts st data.ledger_entries) e) ∧
    (∀ pre e post, data.ledger_entries = pre ++ e :: post →
      (∀ p ∈ pre, ¬ offendsAsset (resolvedAccounts st data.ledger_entries) p) →
      ∀ a, (resolvedAccounts st data.ledger_entries).find?
          (fun x => x.id == e.accountId) = some a →
        a.type = AccountType.ASSET → a.balance + e.amount < 0 →
        (TransactionService.create st data uid).2 =
          .error (.InsufficientBalance a.name a.balance (-e.amount))) := by
  have H1' : data.ledger_entries.foldl (fun acc e => acc + e.amount) 0 = 0 := by
    rw [entryFold_eq]
    simpa using H1
  constructor
  · constructor
    · rintro ⟨nm, cur, req, h⟩
      by_contra hno
      push_neg at hno
      have hp : precheckEntries (resolvedAccounts st data.ledger_entries)
          data.ledger_entries = none :=
        (precheckEntries_eq_none _ _).mpr hno
      rw [create_eq_success st data uid H1' H2 H3 H4 H5 H6 hp] at h
      exact absurd h (by simp)
    · rintro ⟨e, he, hoff⟩
      cases hp : precheckEntries (resolvedAccounts st data.ledger_entries)
          data.ledger_entries with
      | none =>
        exact absurd hoff ((precheckEntries_eq_none _ _).mp hp e he)
      | some err =>
        rcases precheckEntries_some_shape _ _ err hp with ⟨nm, cur, req, rfl⟩
        exact ⟨nm, cur, req, by
          rw [create_eq_precheckError st data uid _ H1' H2 H3 H4 H5 H6 hp]⟩
  · rintro pre e post hsplit hpre a hfind ht hlt
    have h2 : precheckEntries (resolvedAccounts st data.ledger_entries) (pre ++ e :: post) =
        some (.InsufficientBalance a.name a.balance (-e.amount)) := by
      rw [precheck_append_skip _ pre hpre (e :: post),
        precheck_hit _ e post a hfind ht hlt]
    rw [← hsplit] at h2
    rw [create_eq_precheckError st data uid _ H1' H2 H3 H4 H5 H6 h2]

theorem asset_floor_check_witness :
    (∃ nm cur req, (TransactionService.create assetLiabSt overdrawData 7).2 =
        .error (.InsufficientBalance nm cur req)) ∧
    isOkB (TransactionService.create assetLiabSt liabNegData 7).2 = true :=
  ⟨(asset_floor_check assetLiabSt overdrawData 7 (by decide) (by decide) (by decide)
      (by decide) (by decide) (by decide)).1.mpr (by decide), rfl⟩

/-- C6: a successful `create` preserves the balance/history consistency
invariant: if beforehand every account's cached balance equals the sum of
its persisted ledger-entry amounts, the same holds after the commit (each
touched account gains exactly the net sum of its entries in the committed
transaction, untouched accounts are unchanged). -/
theorem submit_preserves_balance_invariant (st : Store) (data : TxInput) (uid : Nat)
    (hinv : balanceInv st) (hok : isOkB (TransactionService.create st data uid).2 = true) :
    balanceInv (TransactionService.create st data uid).1 := by
  rcases create_cases st data uid with ⟨-, e, h2⟩ | h2
  · rw [h2] at hok
    simp [isOkB] at hok
  · rw [h2]
    show balanceInv (persistUnit st data).1
    rw [persistUnit_eq]
    intro a ha
    simp only at ha
    rcases List.mem_map.mp ha with ⟨b, hb, rfl⟩
    show b.balance + inputSumFor data.ledger_entries b.id =
      entriesSumFor (st.entries ++ mkEntries st.nextEntryId st.nextTxId data.ledger_entries)
        b.id
    rw [entriesSumFor_append, mkEntries_sumFor st.nextTxId b.id data.ledger_entries
      st.nextEntryId, hinv b hb]

theorem submit_preserves_balance_invariant_witness :
    balanceInv (TransactionService.create invSt transferData 7).1 :=
  submit_preserves_balance_invariant invSt transferData 7 (by decide) rfl

/-- C7: the recomputed balance equals the sum of all ledger-entry amounts
persisted for the account, is invariant under permutation of the entry
history, and recomputing over the state left by a recomputation yields the
same value. -/
theorem recompute_sum_perm_idem (st st2 : Store) (accountId : Nat)
    (hperm : st2.entries.Perm st.entries) :
    ((AccountService.recalculateBalance st accountId).2 =
      entriesSumFor st.entries accountId) ∧
    ((AccountService.recalculateBalance st2 accountId).2 =
      (AccountService.recalculateBalance st accountId).2) ∧
    ((AccountService.recalculateBalance
        (AccountService.recalculateBalance st accountId).1 accountId).2 =
      (AccountService.recalculateBalance st accountId).2) := by
  have hval : ∀ s : Store, (AccountService.recalculateBalance s accountId).2 =
      entriesSumFor s.entries accountId := by
    intro s
    simp only [AccountService.recalculateBalance]
    rw [ledgerFold_eq]
    simp [entriesSumFor]
  refine ⟨hval st, ?_, ?_⟩
  · rw [hval st, hval st2]
    unfold entriesSumFor
    exact ((hperm.filter _).map _).sum_eq
  · rw [hval, hval]
    rfl

theorem recompute_sum_perm_idem_witness :
    permSt2.entries.Perm permSt.entries ∧
    (AccountService.recalculateBalance permSt2 1).2 =
      (AccountService.recalculateBalance permSt 1).2 :=
  ⟨by decide, (recompute_sum_perm_idem permSt permSt2 1 (by decide)).2.1⟩

/-- C8 counterexample: both entries reference the existing account 1 — every
referenced id resolves to a stored row — yet `create` fails with the
account-not-found error, because only one row comes back for the two
(duplicate) referenced ids. -/
theorem account_not_found_counterexample :
    (dupData.ledger_entries.map (·.accountId)).all
      (fun i => (dupSt.accounts.map (·.id)).contains i) = true ∧
    (TransactionService.create dupSt dupData 7).2 = .error .AccountNotFound :=
  ⟨by decide, rfl⟩

/-- C8 amended: under passing validation, `create` fails with
`AccountNotFound` iff the number of resolved account rows differs from the
number of submitted entries — a missing id fails, but duplicate references
to one existing account fail the same way, so success requires the
referenced ids to be distinct and all present. -/
theorem account_not_found_iff (st : Store) (data : TxInput) (uid : Nat)
    (H1 : (data.ledger_entries.map (·.amount)).sum = 0)
    (H2 : ¬ data.ledger_entries.length < 2)
    (H3 : ∀ e ∈ data.ledger_entries, e.amount ≠ 0) :
    ((TransactionService.create st data uid).2 = .error .AccountNotFound ↔
      (resolvedAccounts st data.ledger_entries).length ≠ data.ledger_entries.length) := by
  have H1' : data.ledger_entries.foldl (fun acc e => acc + e.amount) 0 = 0 := by
    rw [entryFold_eq]
    simpa using H1
  have H3' : data.ledger_entries.any (fun e => e.amount == 0) = false := by
    rw [List.any_eq_false]
    intro e he
    simpa using H3 e he
  constructor
  · intro h
    intro hc
    by_cases c5 : ((resolvedAccounts st data.ledger_entries).filter
        (fun a => !(a.ownerId == uid))).length > 0
    · rw [create_eq_forbidden st data uid H1' H2 H3' hc c5] at h
      exact absurd h (by simp)
    by_cases c6 : (((resolvedAccounts st data.ledger_entries).map
        (·.currency)).eraseDups).length > 1
    · rw [create_eq_currencyMismatch st data uid H1' H2 H3' hc c5 c6] at h
      exact absurd h (by simp)
    cases hp : precheckEntries (resolvedAccounts st data.ledger_entries)
        data.ledger_entries with
    | some err =>
      rw [create_eq_precheckError st data uid err H1' H2 H3' hc c5 c6 hp] at h
      rcases precheckEntries_some_shape _ _ err hp with ⟨nm, cur, req, rfl⟩
      exact absurd h (by simp)
    | none =>
      rw [create_eq_success st data uid H1' H2 H3' hc c5 c6 hp] at h
      exact absurd h (by simp)
  · intro hne
    rw [create_eq_accountNotFound st data uid H1' H2 H3' hne]

theorem account_not_found_iff_witness :
    (TransactionService.create dupSt dupData 7).2 = .error .AccountNotFound :=
  (account_not_found_iff dupSt dupData 7 (by decide) (by decide) (by decide)).mpr (by decide)

/-- C10: `AccountService.create` persists every new account with balance
exactly 0 — the input type carries no balance field a caller could set — and
when the owning customer id does not resolve it fails with the
customer-not-found error and persists nothing. -/
theorem account_create_zero_balance (st : Store) (data : AccountInput) :
    (st.customers.find? (fun c => c.id == data.ownerId) = none →
      AccountService.create st data = (st, .error .CustomerNotFound)) ∧
    (∀ a ∈ (AccountService.create st data).1.accounts, a ∈ st.accounts ∨ a.balance = 0) ∧
    (∀ acct, (AccountService.create st data).2 = .ok acct → acct.balance = 0) := by
  cases hf : st.customers.find? (fun c => c.id == data.ownerId) with
  | none =>
    refine ⟨fun _ => by simp [AccountService.create, hf], ?_, ?_⟩
    · intro a ha
      left
      simpa [AccountService.create, hf] using ha
    · intro acct h
      simp only [AccountService.create, hf] at h
      exact absurd h (by simp)
  | some c =>
    refine ⟨fun hnone => absurd hnone (by simp), ?_, ?_⟩
    · intro a ha
      simp only [AccountService.create, hf] at ha
      rcases List.mem_append.mp ha with h | h
      · exact Or.inl h
      · right
        rw [List.mem_singleton.mp h]
    · intro acct h
      simp only [AccountService.create, hf] at h
      injection h with h2
      rw [← h2]

theorem account_create_zero_balance_witness :
    AccountService.create dupSt orphanAccountData = (dupSt, .error .CustomerNotFound) ∧
    (∀ acct, (AccountService.create dupSt newAccountData).2 = .ok acct →
      acct.balance = 0) :=
  ⟨(account_create_zero_balance dupSt orphanAccountData).1 rfl,
   (account_create_zero_balance dupSt newAccountData).2.2⟩

end Ledger
